import Mathlib

/-!
Shallow embedding of `src/lib.rs` of the max7219 LED-matrix driver.

The Rust driver `MAX7219LedMat<SPI, BUFLEN, COUNT>` owns a byte-per-pixel
framebuffer of length `BUFLEN` and an SPI transport.  Here the framebuffer is
a `List Nat` (each cell a `u8` value), and the SPI transport is modelled as a
failure oracle `fail : Nat → Option E` (the result of the `n`-th `spi.write`
call, counted from construction) together with the log `calls` of the byte
buffers passed to `spi.write` so far, in order.  Machine `u8` arithmetic is
modelled on `Nat` with explicit `% 256` where the source can overflow.
-/

namespace MAX7219

/-- Register addresses understood by every chained chip (`enum Command`). -/
inductive Command where
  | NoOp
  | DecodeMode
  | Intensity
  | ScanLimit
  | Shutdown
  | DisplayTest

/-- Discriminant values of `Command` as written in the source. -/
def Command.toNat : Command → Nat
  | .NoOp => 0x00
  | .DecodeMode => 0x09
  | .Intensity => 0x0A
  | .ScanLimit => 0x0B
  | .Shutdown => 0x0C
  | .DisplayTest => 0x0F

/-- Decode-mode register values (`enum DecodeMode`). -/
inductive DecodeMode where
  | NoDecode
  | CodeB0
  | CodeB30
  | CodeB70

/-- Discriminant values of `DecodeMode`. -/
def DecodeMode.toNat : DecodeMode → Nat
  | .NoDecode => 0x00
  | .CodeB0 => 0x01
  | .CodeB30 => 0x0F
  | .CodeB70 => 0xFF

/-- Intensity register values (`enum Intensity`), 16 steps 0x00–0x0F. -/
inductive Intensity where
  | Min
  | Ratio3_32
  | Ratio5_32
  | Ratio7_32
  | Ratio9_32
  | Ratio11_32
  | Ratio13_32
  | Ratio15_32
  | Ratio17_32
  | Ratio19_32
  | Ratio21_32
  | Ratio23_32
  | Ratio25_32
  | Ratio27_32
  | Ratio29_32
  | Max

/-- Discriminant values of `Intensity`. -/
def Intensity.toNat : Intensity → Nat
  | .Min => 0x00
  | .Ratio3_32 => 0x01
  | .Ratio5_32 => 0x02
  | .Ratio7_32 => 0x03
  | .Ratio9_32 => 0x04
  | .Ratio11_32 => 0x05
  | .Ratio13_32 => 0x06
  | .Ratio15_32 => 0x07
  | .Ratio17_32 => 0x08
  | .Ratio19_32 => 0x09
  | .Ratio21_32 => 0x0A
  | .Ratio23_32 => 0x0B
  | .Ratio25_32 => 0x0C
  | .Ratio27_32 => 0x0D
  | .Ratio29_32 => 0x0E
  | .Max => 0x0F

/-- Power-mode values (`enum Shutdown`). -/
inductive Shutdown where
  | ShutDownMode
  | NormalOperation

/-- Scan-limit register values (`enum ScanLimit`). -/
inductive ScanLimit where
  | Display0Only
  | Display0And1
  | Display0To2
  | Display0To3
  | Display0To4
  | Display0To5
  | Display0To6
  | Display0To7

/-- Discriminant values of `ScanLimit`. -/
def ScanLimit.toNat : ScanLimit → Nat
  | .Display0Only => 0x00
  | .Display0And1 => 0x01
  | .Display0To2 => 0x02
  | .Display0To3 => 0x03
  | .Display0To4 => 0x04
  | .Display0To5 => 0x05
  | .Display0To6 => 0x06
  | .Display0To7 => 0x07

/-- Driver error type (`enum Error<E>`): a communication error wraps the
transport's error; the pin variant carries Rust's `Infallible`, modelled by
the uninhabited `Empty`. -/
inductive Error (E : Type) where
  | Comm : E → Error E
  | Pin : Empty → Error E

/-- Byte-per-pixel framebuffer, `[u8; BUFLEN]` in the source. -/
abbrev Framebuffer := List Nat

/-- Model of the SPI transport: `fail n` is the outcome of the `n`-th write
call (`none` = success), and `calls` is the log of byte buffers passed to
`spi.write` so far, in order. -/
structure SpiState (E : Type) where
  fail : Nat → Option E
  calls : List (List Nat)

/-- Driver state: the framebuffer plus the owned SPI transport. -/
structure Driver (E : Type) where
  framebuffer : Framebuffer
  spi : SpiState E

/-- One `spi.write(arr)` call: the buffer is appended to the call log and the
failure oracle decides the outcome at the current call index. -/
def spiWrite {E : Type} (s : SpiState E) (arr : List Nat) :
    SpiState E × Except E Unit :=
  ({ s with calls := s.calls ++ [arr] },
   match s.fail s.calls.length with
   | some e => .error e
   | none => .ok ())

/-- Constructor `new(spi)`: stores the transport and zero-initializes the
framebuffer.  `COUNT` is the module-count const generic of the Rust type; the
body does not use it and no relation between `BUFLEN` and `COUNT` is
checked. -/
def new (E : Type) (BUFLEN : Nat) (_COUNT : Nat) (spi : SpiState E) : Driver E :=
  { framebuffer := List.replicate BUFLEN 0, spi := spi }

/-- Method `transmit_raw_data`: `self.spi.write(&arr).await.map_err(Error::Comm)`. -/
def transmit_raw_data {E : Type} (d : Driver E) (arr : List Nat) :
    Driver E × Except (Error E) Unit :=
  let res := spiWrite d.spi arr
  ({ d with spi := res.1 }, res.2.mapError Error.Comm)

/-- Inner packing loop of `flush`: `let mut b = 0; for i in 0..arr.len()
\x7b b |= arr[i] << (arr.len() - 1 - i); \x7d`.  `u8` shift truncates, hence the
`% 256`. -/
def packByte (arr : List Nat) : Nat :=
  (List.range arr.length).foldl
    (fun b i => b ||| ((arr.getD i 0 <<< (arr.length - 1 - i)) % 256)) 0

/-- Framebuffer offset of module `disp`'s cells in row `addr`:
`base = (disp * 8) + (addr * (COUNT * 8))`. -/
def rowBase (disp addr COUNT : Nat) : Nat :=
  disp * 8 + addr * (COUNT * 8)

/-- The slice `&self.framebuffer[base..base + 8]` read by `flush`. -/
def rowSlice (fb : Framebuffer) (disp addr COUNT : Nat) : List Nat :=
  (fb.drop (rowBase disp addr COUNT)).take 8

/-- The `data` vector of `flush`: one packed byte per module, collected over
`(0..COUNT).rev()` (reverse module order). -/
def rowData (COUNT : Nat) (fb : Framebuffer) (addr : Nat) : List Nat :=
  (List.range COUNT).reverse.map (fun disp => packByte (rowSlice fb disp addr COUNT))

/-- The transmission buffer of `flush` for one row: a zeroed `[u8; 2 * COUNT]`
written by `for i in 0..data.len() \x7b buffer[2 * i] = addr + 1;
buffer[2 * i + 1] = data[data.len() - 1 - i]; \x7d`. -/
def rowBuffer (COUNT : Nat) (fb : Framebuffer) (addr : Nat) : List Nat :=
  let data := rowData COUNT fb addr
  (List.range data.length).foldl
    (fun buffer i =>
      (buffer.set (2 * i) (addr + 1)).set (2 * i + 1)
        (data.getD (data.length - 1 - i) 0))
    (List.replicate (2 * COUNT) 0)

/-- The row loop of `flush`: transmit each row buffer in turn, returning the
first error (the `?` operator) without attempting the remaining rows. -/
def flushLoop {E : Type} (COUNT : Nat) (fb : Framebuffer) :
    SpiState E → List Nat → SpiState E × Except (Error E) Unit
  | s, [] => (s, .ok ())
  | s, addr :: rest =>
    let res := spiWrite s (rowBuffer COUNT fb addr)
    match res.2 with
    | .error e => (res.1, .error (Error.Comm e))
    | .ok _ => flushLoop COUNT fb res.1 rest

/-- Method `flush`: for `addr in 0..8`, build the row buffer from the
framebuffer and transmit it; the framebuffer is only read. -/
def flush {E : Type} (COUNT : Nat) (d : Driver E) :
    Driver E × Except (Error E) Unit :=
  let res := flushLoop COUNT d.framebuffer d.spi (List.range 8)
  ({ d with spi := res.1 }, res.2)

/-- Method `config_power_mode`. -/
def config_power_mode {E : Type} (d : Driver E) (mode : Shutdown) :
    Driver E × Except (Error E) Unit :=
  let data : Nat :=
    match mode with
    | .NormalOperation => 0x01
    | .ShutDownMode => 0x00
  transmit_raw_data d [Command.Shutdown.toNat, data]

/-- Method `config_decode_mode`. -/
def config_decode_mode {E : Type} (d : Driver E) (mode : DecodeMode) :
    Driver E × Except (Error E) Unit :=
  transmit_raw_data d [Command.DecodeMode.toNat, mode.toNat]

/-- Method `config_scan_limit`. -/
def config_scan_limit {E : Type} (d : Driver E) (mode : ScanLimit) :
    Driver E × Except (Error E) Unit :=
  transmit_raw_data d [Command.ScanLimit.toNat, mode.toNat]

/-- Method `config_intensity`. -/
def config_intensity {E : Type} (d : Driver E) (mode : Intensity) :
    Driver E × Except (Error E) Unit :=
  transmit_raw_data d [Command.Intensity.toNat, mode.toNat]

/-- Method `clear`: `self.framebuffer = [0; BUFLEN];` — no I/O, no result. -/
def clear {E : Type} (BUFLEN : Nat) (d : Driver E) : Driver E :=
  { d with framebuffer := List.replicate BUFLEN 0 }

/-- Method `init_display`: power mode, decode mode, scan limit, intensity, in
order, each chained with `?` (first failure aborts the rest). -/
def init_display {E : Type} (d : Driver E) : Driver E × Except (Error E) Unit :=
  let r1 := config_power_mode d .NormalOperation
  match r1.2 with
  | .error e => (r1.1, .error e)
  | .ok _ =>
    let r2 := config_decode_mode r1.1 .NoDecode
    match r2.2 with
    | .error e => (r2.1, .error e)
    | .ok _ =>
      let r3 := config_scan_limit r2.1 .Display0To7
      match r3.2 with
      | .error e => (r3.1, .error e)
      | .ok _ => config_intensity r3.1 .Ratio3_32

/-- Pixel position of the `embedded-graphics` surface (`Point`, `i32` coords). -/
structure Point where
  x : Int
  y : Int

/-- Binary pixel color of the drawing surface. -/
inductive BinaryColor where
  | Off
  | On

/-- Predicate `BinaryColor::is_on`. -/
def BinaryColor.is_on : BinaryColor → Bool
  | .On => true
  | .Off => false

/-- Bounding-box test `bb.contains(pos)` for the surface reported by
`size()`: width `COUNT * 8`, height `8`, origin `(0, 0)`. -/
def bbContains (COUNT : Nat) (p : Point) : Bool :=
  decide (0 ≤ p.x ∧ p.x < (COUNT : Int) * 8 ∧ 0 ≤ p.y ∧ p.y < 8)

/-- Framebuffer index computed by `draw_iter`:
`pos.x as u32 + pos.y as u32 * 8 * COUNT` (the filter guarantees the
coordinates are non-negative, so the casts are `Int.toNat`). -/
def drawIndex (COUNT : Nat) (p : Point) : Nat :=
  p.x.toNat + p.y.toNat * 8 * COUNT

/-- Body of `draw_iter` on the framebuffer: filter the pixel stream by the
bounding box, then write `color.is_on() as u8` at `drawIndex`, in order. -/
def drawPixels (COUNT : Nat) (fb : Framebuffer)
    (pixels : List (Point × BinaryColor)) : Framebuffer :=
  (pixels.filter (fun px => bbContains COUNT px.1)).foldl
    (fun acc px => acc.set (drawIndex COUNT px.1) (if px.2.is_on then 1 else 0))
    fb

/-- Trait method `draw_iter` of the `DrawTarget` impl: updates only the
framebuffer and returns `Ok(())`; its error type is Rust's `Infallible`,
modelled by `Empty`. -/
def draw_iter {E : Type} (COUNT : Nat) (d : Driver E)
    (pixels : List (Point × BinaryColor)) : Driver E × Except Empty Unit :=
  ({ d with framebuffer := drawPixels COUNT d.framebuffer pixels }, .ok ())

end MAX7219

namespace MAX7219

/-- Length is preserved by the pairwise-write fold of `rowBuffer`. -/
lemma foldl_setPairs_length (a : Nat) (w : Nat → Nat) (n : Nat) (init : List Nat) :
    ((List.range n).foldl (fun buf i => (buf.set (2 * i) a).set (2 * i + 1) (w i)) init).length
      = init.length := by
  induction n with
  | zero => simp
  | succ m ih =>
    rw [List.range_succ, List.foldl_append]
    simp [ih]

/-- Entries written by the pairwise-write fold of `rowBuffer`: slot `2k` holds
`a` and slot `2k + 1` holds `w k`, for every `k < n`. -/
lemma foldl_setPairs_getD (a : Nat) (w : Nat → Nat) :
    ∀ (n : Nat) (init : List Nat), 2 * n ≤ init.length → ∀ k, k < n →
      ((List.range n).foldl (fun buf i => (buf.set (2 * i) a).set (2 * i + 1) (w i)) init).getD
          (2 * k) 0 = a ∧
      ((List.range n).foldl (fun buf i => (buf.set (2 * i) a).set (2 * i + 1) (w i)) init).getD
          (2 * k + 1) 0 = w k := by
  intro n
  induction n with
  | zero => intro init _ k hk; omega
  | succ m ih =>
    intro init hn k hk
    rw [List.range_succ, List.foldl_append]
    simp only [List.foldl_cons, List.foldl_nil]
    have hlen : ((List.range m).foldl
        (fun buf i => (buf.set (2 * i) a).set (2 * i + 1) (w i)) init).length = init.length :=
      foldl_setPairs_length a w m init
    rcases Nat.lt_or_ge k m with hkm | hkm
    · have h1 : (2 : Nat) * m ≠ 2 * k := by omega
      have h2 : 2 * m + 1 ≠ 2 * k := by omega
      have h3 : (2 : Nat) * m ≠ 2 * k + 1 := by omega
      have h4 : 2 * m + 1 ≠ 2 * k + 1 := by omega
      have ihk := ih init (by omega) k hkm
      constructor
      · rw [List.getD_eq_getElem?_getD, List.getElem?_set_ne h2, List.getElem?_set_ne h1,
          ← List.getD_eq_getElem?_getD]
        exact ihk.1
      · rw [List.getD_eq_getElem?_getD, List.getElem?_set_ne h4, List.getElem?_set_ne h3,
          ← List.getD_eq_getElem?_getD]
        exact ihk.2
    · have hkm' : k = m := by omega
      subst hkm'
      constructor
      · rw [List.getD_eq_getElem?_getD, List.getElem?_set_ne (by omega : 2 * k + 1 ≠ 2 * k),
          List.getElem?_set_self (by rw [hlen]; omega)]
        rfl
      · rw [List.getD_eq_getElem?_getD,
          List.getElem?_set_self (by rw [List.length_set, hlen]; omega)]
        rfl

/-- The `data` vector of `flush` has one entry per module. -/
lemma rowData_length (COUNT : Nat) (fb : Framebuffer) (addr : Nat) :
    (rowData COUNT fb addr).length = COUNT := by
  simp [rowData]

/-- Entry `j` of the `data` vector is the packed byte of module `COUNT-1-j`
(the vector is collected in reverse module order). -/
lemma rowData_getD (COUNT : Nat) (fb : Framebuffer) (addr j : Nat) (hj : j < COUNT) :
    (rowData COUNT fb addr).getD j 0 = packByte (rowSlice fb (COUNT - 1 - j) addr COUNT) := by
  rw [rowData, List.getD_eq_getElem?_getD, List.getElem?_map,
    List.getElem?_reverse (by simpa using hj)]
  simp only [List.length_range]
  rw [List.getElem?_range (by omega : COUNT - 1 - j < COUNT)]
  rfl

/-- The transmission buffer of a row has `2 × COUNT` bytes. -/
lemma rowBuffer_length (COUNT : Nat) (fb : Framebuffer) (addr : Nat) :
    (rowBuffer COUNT fb addr).length = 2 * COUNT := by
  simp only [rowBuffer]
  rw [foldl_setPairs_length]
  simp

/-- Entries of the transmission buffer of a row: byte `2i` is the row-register
address `addr + 1` and byte `2i + 1` is the packed byte of logical module `i`
(the two index reversals in the source cancel). -/
lemma rowBuffer_getD (COUNT : Nat) (fb : Framebuffer) (addr i : Nat) (hi : i < COUNT) :
    (rowBuffer COUNT fb addr).getD (2 * i) 0 = addr + 1 ∧
    (rowBuffer COUNT fb addr).getD (2 * i + 1) 0 = packByte (rowSlice fb i addr COUNT) := by
  have hlen := rowData_length COUNT fb addr
  have h := foldl_setPairs_getD (addr + 1)
    (fun j => (rowData COUNT fb addr).getD ((rowData COUNT fb addr).length - 1 - j) 0)
    (rowData COUNT fb addr).length (List.replicate (2 * COUNT) 0)
    (by simp [hlen]) i (by omega)
  have e1 : COUNT - 1 - (COUNT - 1 - i) = i := by omega
  constructor
  · have h1 := h.1
    simpa only [rowBuffer] using h1
  · have h2 := h.2
    have hmid : (rowBuffer COUNT fb addr).getD (2 * i + 1) 0
        = (rowData COUNT fb addr).getD ((rowData COUNT fb addr).length - 1 - i) 0 := by
      simpa only [rowBuffer] using h2
    rw [hmid, hlen, rowData_getD COUNT fb addr (COUNT - 1 - i) (by omega), e1]

end MAX7219

namespace MAX7219

/-- When every write in range succeeds, the row loop of `flush` transmits one
row buffer per row, in order, and returns `Ok(())`. -/
lemma flushLoop_ok {E : Type} (COUNT : Nat) (fb : Framebuffer) :
    ∀ (rows : List Nat) (s : SpiState E),
      (∀ n, n < rows.length → s.fail (s.calls.length + n) = none) →
      flushLoop COUNT fb s rows =
        ({ s with calls := s.calls ++ rows.map (rowBuffer COUNT fb) }, .ok ()) := by
  intro rows
  induction rows with
  | nil => intro s _; simp [flushLoop]
  | cons addr rest ih =>
    intro s hs
    have h0 : s.fail s.calls.length = none := by simpa using hs 0 (by simp)
    have hs' : ∀ n, n < rest.length →
        (({ s with calls := s.calls ++ [rowBuffer COUNT fb addr] } : SpiState E)).fail
          ((({ s with calls := s.calls ++ [rowBuffer COUNT fb addr] } : SpiState E)).calls.length
            + n) = none := by
      intro n hn
      have := hs (n + 1) (by simpa using Nat.succ_lt_succ hn)
      simpa [Nat.add_assoc, Nat.add_comm 1 n] using this
    simp only [flushLoop, spiWrite, h0]
    rw [ih _ hs']
    simp

/-- When the first failing write is the `k`-th (with `k` inside the loop),
the row loop stops right there with a `Comm` error, having transmitted
exactly the first `k + 1` row buffers. -/
lemma flushLoop_err {E : Type} (COUNT : Nat) (fb : Framebuffer) :
    ∀ (rows : List Nat) (s : SpiState E) (k : Nat) (e : E),
      (∀ n, n < k → s.fail (s.calls.length + n) = none) →
      s.fail (s.calls.length + k) = some e →
      k < rows.length →
      flushLoop COUNT fb s rows =
        ({ s with calls := s.calls ++ (rows.take (k + 1)).map (rowBuffer COUNT fb) },
         .error (Error.Comm e)) := by
  intro rows
  induction rows with
  | nil => intro s k e _ _ hk; simp at hk
  | cons addr rest ih =>
    intro s k e hpre hfail hk
    match k with
    | 0 =>
      have h0 : s.fail s.calls.length = some e := by simpa using hfail
      simp [flushLoop, spiWrite, h0]
    | Nat.succ k =>
      have h0 : s.fail s.calls.length = none := by simpa using hpre 0 (by omega)
      have hpre' : ∀ n, n < k →
          (({ s with calls := s.calls ++ [rowBuffer COUNT fb addr] } : SpiState E)).fail
            ((({ s with calls := s.calls ++ [rowBuffer COUNT fb addr] } : SpiState E)).calls.length
              + n) = none := by
        intro n hn
        have := hpre (n + 1) (by omega)
        simpa [Nat.add_assoc, Nat.add_comm 1 n] using this
      have hfail' :
          (({ s with calls := s.calls ++ [rowBuffer COUNT fb addr] } : SpiState E)).fail
            ((({ s with calls := s.calls ++ [rowBuffer COUNT fb addr] } : SpiState E)).calls.length
              + k) = some e := by
        have : s.calls.length + 1 + k = s.calls.length + (k + 1) := by omega
        simpa [this] using hfail
      simp only [flushLoop, spiWrite, h0]
      rw [ih _ k e hpre' hfail' (by simpa using hk)]
      simp

/-- A slice whose cells are all zero packs to the zero byte. -/
lemma packByte_zero (arr : List Nat) (h : ∀ j, j < arr.length → arr.getD j 0 = 0) :
    packByte arr = 0 := by
  rw [packByte]
  have aux : ∀ l : List Nat, (∀ i ∈ l, i < arr.length) →
      l.foldl (fun b i => b ||| ((arr.getD i 0 <<< (arr.length - 1 - i)) % 256)) 0 = 0 := by
    intro l
    induction l with
    | nil => intro _; rfl
    | cons i t iht =>
      intro hmem
      simp only [List.foldl_cons]
      rw [h i (hmem i (by simp))]
      simpa using iht (fun j hj => hmem j (by simp [hj]))
  exact aux (List.range arr.length) (by intro i hi; simpa using hi)

/-- Cell `j` of the row slice is framebuffer cell `base + j`. -/
lemma rowSlice_getD (fb : Framebuffer) (disp addr COUNT j : Nat) (hj : j < 8) :
    (rowSlice fb disp addr COUNT).getD j 0 = fb.getD (rowBase disp addr COUNT + j) 0 := by
  rw [rowSlice, List.getD_eq_getElem?_getD, List.getElem?_take_of_lt hj, List.getElem?_drop,
    ← List.getD_eq_getElem?_getD]

/-- An in-bounds row slice has exactly 8 cells. -/
lemma rowSlice_length (fb : Framebuffer) (disp addr COUNT : Nat)
    (h : rowBase disp addr COUNT + 8 ≤ fb.length) :
    (rowSlice fb disp addr COUNT).length = 8 := by
  rw [rowSlice]
  simp only [List.length_take, List.length_drop]
  omega

/-- Uniqueness of the `col + row * K` decomposition of a framebuffer index. -/
lemma block_eq (K a a' b b' : Nat) (hK : 0 < K) (ha : a < K) (ha' : a' < K)
    (h : a + b * K = a' + b' * K) : a = a' ∧ b = b' := by
  have hb : b = b' := by
    have h1 := congrArg (· / K) h
    simpa [Nat.add_mul_div_right _ _ hK, Nat.div_eq_of_lt ha, Nat.div_eq_of_lt ha'] using h1
  subst hb
  exact ⟨Nat.add_right_cancel h, rfl⟩

end MAX7219

namespace MAX7219

/-- On an all-success transport starting with an empty log, `flush` succeeds
and transmits exactly the eight row buffers, in row order. -/
lemma flush_ok_calls {E : Type} (COUNT : Nat) (fb : Framebuffer) (f : Nat → Option E)
    (hf : ∀ n, f n = none) :
    flush COUNT (⟨fb, ⟨f, []⟩⟩ : Driver E)
      = (⟨fb, ⟨f, (List.range 8).map (rowBuffer COUNT fb)⟩⟩, .ok ()) := by
  have hloop := flushLoop_ok COUNT fb (List.range 8) ⟨f, []⟩ (by intro n _; simpa using hf n)
  simp [flush, hloop]

/-- The `addr`-th transmission of a successful `flush` is the row-`addr`
buffer. -/
lemma flush_ok_calls_getD {E : Type} (COUNT : Nat) (fb : Framebuffer) (f : Nat → Option E)
    (hf : ∀ n, f n = none) (addr : Nat) (haddr : addr < 8) :
    (flush COUNT (⟨fb, ⟨f, []⟩⟩ : Driver E)).1.spi.calls.getD addr []
      = rowBuffer COUNT fb addr := by
  rw [flush_ok_calls COUNT fb f hf]
  show ((List.range 8).map (rowBuffer COUNT fb)).getD addr []
      = rowBuffer COUNT fb addr
  rw [List.getD_eq_getElem?_getD, List.getElem?_map, List.getElem?_range haddr]
  rfl

/-- Claim C2: for every ModuleCount ≥ 1 with BufferLen = 64 × ModuleCount,
`flush` performs exactly 8 raw sends, one per row `addr` in `0..8` in
increasing order, each of exactly `2 × ModuleCount` bytes; byte `2i` equals
`addr + 1` for every slot `i < ModuleCount`, and byte `2i + 1` is the packed
byte at reversed-order position `ModuleCount - 1 - i` of the
reverse-module-order collection, i.e. the packed byte of logical module `i` —
the same shape whatever the framebuffer contents. -/
theorem C2_flush_shape {E : Type} (COUNT : Nat) (hC : 1 ≤ COUNT)
    (fb : Framebuffer) (hfb : fb.length = 64 * COUNT)
    (f : Nat → Option E) (hf : ∀ n, f n = none) :
    (flush COUNT (⟨fb, ⟨f, []⟩⟩ : Driver E)).2 = .ok () ∧
    (flush COUNT (⟨fb, ⟨f, []⟩⟩ : Driver E)).1.spi.calls.length = 8 ∧
    (∀ addr, addr < 8 →
      (flush COUNT (⟨fb, ⟨f, []⟩⟩ : Driver E)).1.spi.calls.getD addr []
        = rowBuffer COUNT fb addr) ∧
    (∀ addr, addr < 8 →
      (rowBuffer COUNT fb addr).length = 2 * COUNT ∧
      ∀ i, i < COUNT →
        (rowBuffer COUNT fb addr).getD (2 * i) 0 = addr + 1 ∧
        (rowBuffer COUNT fb addr).getD (2 * i + 1) 0
          = (rowData COUNT fb addr).getD ((rowData COUNT fb addr).length - 1 - i) 0 ∧
        (rowBuffer COUNT fb addr).getD (2 * i + 1) 0 = packByte (rowSlice fb i addr COUNT)) := by
  refine ⟨?_, ?_, ?_, ?_⟩
  · rw [flush_ok_calls COUNT fb f hf]
  · rw [flush_ok_calls COUNT fb f hf]
    simp
  · intro addr haddr
    exact flush_ok_calls_getD COUNT fb f hf addr haddr
  · intro addr haddr
    refine ⟨rowBuffer_length COUNT fb addr, ?_⟩
    intro i hi
    have hrb := rowBuffer_getD COUNT fb addr i hi
    refine ⟨hrb.1, ?_, hrb.2⟩
    rw [rowData_length, rowData_getD COUNT fb addr (COUNT - 1 - i) (by omega),
      (by omega : COUNT - 1 - (COUNT - 1 - i) = i)]
    exact hrb.2

/-- Witness for C2 at ModuleCount 1 on an all-zero framebuffer. -/
theorem C2_flush_shape_witness :
    (flush 1 (⟨List.replicate 64 0, ⟨fun _ => none, []⟩⟩ : Driver Unit)).2 = .ok () ∧
    (flush 1 (⟨List.replicate 64 0, ⟨fun _ => none, []⟩⟩ : Driver Unit)).1.spi.calls.length = 8 ∧
    (flush 1 (⟨List.replicate 64 0, ⟨fun _ => none, []⟩⟩ : Driver Unit)).1.spi.calls.getD 3 []
      = rowBuffer 1 (List.replicate 64 0) 3 ∧
    (rowBuffer 1 (List.replicate 64 0) 3).getD (2 * 0) 0 = 3 + 1 := by
  have h := C2_flush_shape 1 (by decide) (List.replicate 64 0) (by simp)
    (fun _ => (none : Option Unit)) (fun _ => rfl)
  exact ⟨h.1, h.2.1, h.2.2.1 3 (by decide), ((h.2.2.2 3 (by decide)).2 0 (by decide)).1⟩

/-- Claim C1 counterexample: ModuleCount = 2, only pixel (0, 0) on — a pixel
in module 0's columns — yet the row-0 transmission of `flush` is
`[1, 0x80, 1, 0]`: its non-zero packed data byte sits in the FIRST data slot
(buffer byte `2·0+1`), and the second data slot (buffer byte `2·1+1`) is
zero, contradicting the claim. -/
theorem C1_counterexample :
    (∀ i, i < 128 → 8 ≤ i % 16 →
      (drawPixels 2 (List.replicate 128 0) [(⟨0, 0⟩, BinaryColor.On)]).getD i 0 = 0) ∧
    (flush 2 (⟨drawPixels 2 (List.replicate 128 0) [(⟨0, 0⟩, BinaryColor.On)],
        ⟨fun _ => none, []⟩⟩ : Driver Unit)).1.spi.calls.getD 0 [] = [1, 128, 1, 0] ∧
    ([1, 128, 1, 0] : List Nat).getD (2 * 1 + 1) 0 = 0 ∧
    ¬([1, 128, 1, 0] : List Nat).getD (2 * 0 + 1) 0 = 0 := by
  exact ⟨by decide, by rfl, by decide, by decide⟩

/-- Claim C1 amended: for ModuleCount = 2, when every framebuffer cell of
module 1's columns is zero (only module 0's pixels may be on), each row
transmission of `flush` carries module 0's packed byte in the FIRST
transmitted data slot (buffer byte `2·0+1`) and zero in the second data slot
(buffer byte `2·1+1`): the reverse collection order and the reversed
indexing of the transmit loop cancel, so logical module `i` feeds slot `i`. -/
theorem C1_amended_first_slot {E : Type} (fb : Framebuffer) (hlen : fb.length = 128)
    (hmod1 : ∀ i, 8 ≤ i % 16 → fb.getD i 0 = 0)
    (f : Nat → Option E) (hf : ∀ n, f n = none) (addr : Nat) (haddr : addr < 8) :
    ((flush 2 (⟨fb, ⟨f, []⟩⟩ : Driver E)).1.spi.calls.getD addr []).getD (2 * 0 + 1) 0
      = packByte (rowSlice fb 0 addr 2) ∧
    ((flush 2 (⟨fb, ⟨f, []⟩⟩ : Driver E)).1.spi.calls.getD addr []).getD (2 * 1 + 1) 0 = 0 := by
  have hslice1 : packByte (rowSlice fb 1 addr 2) = 0 := by
    apply packByte_zero
    intro j hj
    have hle : (rowSlice fb 1 addr 2).length ≤ 8 := by
      rw [rowSlice]
      simp only [List.length_take, List.length_drop]
      omega
    have hj8 : j < 8 := lt_of_lt_of_le hj hle
    rw [rowSlice_getD fb 1 addr 2 j hj8]
    apply hmod1
    have hb : rowBase 1 addr 2 + j = (8 + j) + addr * 16 := by
      rw [rowBase]; ring
    rw [hb, Nat.add_mul_mod_self_right, Nat.mod_eq_of_lt (by omega)]
    omega
  rw [flush_ok_calls_getD 2 fb f hf addr haddr]
  exact ⟨(rowBuffer_getD 2 fb addr 0 (by omega)).2,
    by rw [(rowBuffer_getD 2 fb addr 1 (by omega)).2]; exact hslice1⟩

/-- Witness for the amended C1 at the single pixel (0, 0), row 0. -/
theorem C1_amended_first_slot_witness :
    ((flush 2 (⟨(List.replicate 128 0).set 0 1, ⟨fun _ => none, []⟩⟩ : Driver Unit)).1.spi.calls.getD
        0 []).getD (2 * 0 + 1) 0
      = packByte (rowSlice ((List.replicate 128 0).set 0 1) 0 0 2) ∧
    ((flush 2 (⟨(List.replicate 128 0).set 0 1, ⟨fun _ => none, []⟩⟩ : Driver Unit)).1.spi.calls.getD
        0 []).getD (2 * 1 + 1) 0 = 0 := by
  apply C1_amended_first_slot ((List.replicate 128 0).set 0 1) (by simp)
    ?_ (fun _ => none) (fun _ => rfl) 0 (by decide)
  intro i hi
  have hne : i ≠ 0 := by omega
  rw [List.getD_eq_getElem?_getD, List.getElem?_set_ne (fun h => hne h.symm),
    List.getElem?_replicate]
  split <;> rfl

end MAX7219

namespace MAX7219

/-- Packing a row slice of the single-pixel framebuffer: the pixel at column
`x` of module 0, row `r`, appears as bit `7 - x` of module 0's row-`r` packed
byte and every other (module, row) packed byte is zero. -/
lemma packByte_single_pixel (COUNT r x disp addr : Nat) (hC : 1 ≤ COUNT) (hr : r < 8)
    (hx : x < 8) (hdisp : disp < COUNT) (haddr : addr < 8) :
    packByte (rowSlice ((List.replicate (64 * COUNT) 0).set (x + r * (8 * COUNT)) 1)
        disp addr COUNT)
      = if addr = r ∧ disp = 0 then 2 ^ (7 - x) else 0 := by
  have hK : 8 ≤ 8 * COUNT := by omega
  have hrm : r * (8 * COUNT) ≤ 7 * (8 * COUNT) := Nat.mul_le_mul_right _ (by omega)
  have ham : addr * (8 * COUNT) ≤ 7 * (8 * COUNT) := Nat.mul_le_mul_right _ (by omega)
  have hdm : disp * 8 + 8 ≤ 8 * COUNT := by
    have h := Nat.mul_le_mul_right 8 (show disp + 1 ≤ COUNT by omega)
    omega
  have hp : x + r * (8 * COUNT) < 64 * COUNT := by omega
  have hb8 : rowBase disp addr COUNT = disp * 8 + addr * (8 * COUNT) := by
    rw [rowBase, Nat.mul_comm COUNT 8]
  have hbound : rowBase disp addr COUNT + 8 ≤ 64 * COUNT := by rw [hb8]; omega
  have hfbel : ∀ q, q < 64 * COUNT →
      ((List.replicate (64 * COUNT) 0).set (x + r * (8 * COUNT)) 1)[q]?
        = some (if q = x + r * (8 * COUNT) then 1 else 0) := by
    intro q hq
    by_cases hqp : q = x + r * (8 * COUNT)
    · subst hqp
      rw [List.getElem?_set_self (by simpa using hp), if_pos rfl]
    · rw [List.getElem?_set_ne (Ne.symm hqp), List.getElem?_replicate, if_neg hqp,
        if_pos hq]
  have hblock : ∀ j, j < 8 →
      (rowBase disp addr COUNT + j = x + r * (8 * COUNT) ↔ addr = r ∧ disp = 0 ∧ j = x) := by
    intro j hj
    constructor
    · intro h
      have h' : (disp * 8 + j) + addr * (8 * COUNT) = x + r * (8 * COUNT) := by
        rw [hb8] at h
        omega
      have hcol : disp * 8 + j < 8 * COUNT := by omega
      have := block_eq (8 * COUNT) (disp * 8 + j) x addr r (by omega) hcol (by omega) h'
      obtain ⟨hcx, har⟩ := this
      have hd0 : disp = 0 := by omega
      exact ⟨har, hd0, by omega⟩
    · rintro ⟨rfl, rfl, rfl⟩
      rw [hb8]
      ring
  by_cases hcase : addr = r ∧ disp = 0
  · obtain ⟨rfl, rfl⟩ := hcase
    rw [if_pos ⟨rfl, rfl⟩]
    have hsl : rowSlice ((List.replicate (64 * COUNT) 0).set (x + addr * (8 * COUNT)) 1)
        0 addr COUNT = (List.replicate 8 0).set x 1 := by
      apply List.ext_getElem?
      intro j
      rcases Nat.lt_or_ge j 8 with hj | hj
      · rw [rowSlice, List.getElem?_take_of_lt hj, List.getElem?_drop,
          hfbel (rowBase 0 addr COUNT + j) (by omega)]
        by_cases hjx : j = x
        · subst hjx
          rw [if_pos ((hblock j hj).mpr ⟨rfl, rfl, rfl⟩),
            List.getElem?_set_self (by simpa using hx)]
        · rw [if_neg (fun h => hjx ((hblock j hj).mp h).2.2),
            List.getElem?_set_ne (Ne.symm hjx), List.getElem?_replicate, if_pos hj]
      · have hlL : (rowSlice ((List.replicate (64 * COUNT) 0).set (x + addr * (8 * COUNT)) 1)
            0 addr COUNT).length = 8 :=
          rowSlice_length _ 0 addr COUNT (by simpa using hbound)
        rw [List.getElem?_eq_none (by omega), List.getElem?_eq_none (by simp; omega)]
    rw [hsl]
    interval_cases x <;> decide
  · rw [if_neg hcase]
    apply packByte_zero
    intro j hj
    have hle : (rowSlice ((List.replicate (64 * COUNT) 0).set (x + r * (8 * COUNT)) 1)
        disp addr COUNT).length ≤ 8 := by
      rw [rowSlice]
      simp only [List.length_take, List.length_drop]
      omega
    have hj8 : j < 8 := lt_of_lt_of_le hj hle
    rw [rowSlice_getD _ disp addr COUNT j hj8, List.getD_eq_getElem?_getD,
      hfbel (rowBase disp addr COUNT + j) (by omega)]
    rw [if_neg (fun h => hcase ⟨((hblock j hj8).mp h).1, ((hblock j hj8).mp h).2.1⟩)]
    rfl

end MAX7219

namespace MAX7219

/-- Claim C3: row packing is MSB-first, cell 0 → bit 7.  With only pixel
(x, r) set on in module 0 (drawn through the pixel surface), a successful
`flush` carries data byte `2 ^ (7 - x)` in module 0's slot of the row-`r`
transmission and zero in every other data slot; in particular `x = 0` gives
0x80 and `x = 7` gives 0x01. -/
theorem C3_msb_first {E : Type} (COUNT r x : Nat) (hC : 1 ≤ COUNT) (hr : r < 8) (hx : x < 8)
    (f : Nat → Option E) (hf : ∀ n, f n = none) :
    ∀ addr, addr < 8 → ∀ i, i < COUNT →
      ((flush COUNT (⟨drawPixels COUNT (List.replicate (64 * COUNT) 0)
            [(⟨(x : Int), (r : Int)⟩, BinaryColor.On)], ⟨f, []⟩⟩ : Driver E)).1.spi.calls.getD
          addr []).getD (2 * i + 1) 0
        = if addr = r ∧ i = 0 then 2 ^ (7 - x) else 0 := by
  intro addr haddr i hi
  have hbb : bbContains COUNT ⟨(x : Int), (r : Int)⟩ = true := by
    simp only [bbContains, decide_eq_true_eq]
    have h8 : (8 : Int) ≤ (COUNT : Int) * 8 := by
      have h1 : (1 : Int) ≤ (COUNT : Int) := by exact_mod_cast hC
      nlinarith
    have hx' : (x : Int) < 8 := by exact_mod_cast hx
    have hr' : (r : Int) < 8 := by exact_mod_cast hr
    refine ⟨by positivity, by omega, by positivity, hr'⟩
  have hidx : drawIndex COUNT ⟨(x : Int), (r : Int)⟩ = x + r * (8 * COUNT) := by
    rw [drawIndex]
    simp only [Int.toNat_natCast]
    ring
  have hfb : drawPixels COUNT (List.replicate (64 * COUNT) 0)
      [(⟨(x : Int), (r : Int)⟩, BinaryColor.On)]
      = (List.replicate (64 * COUNT) 0).set (x + r * (8 * COUNT)) 1 := by
    simp [drawPixels, hbb, hidx, BinaryColor.is_on]
  rw [hfb, flush_ok_calls_getD COUNT _ f hf addr haddr,
    (rowBuffer_getD COUNT _ addr i hi).2,
    packByte_single_pixel COUNT r x i addr hC hr hx hi haddr]

/-- Witness for C3: ModuleCount 1, pixel (0, 0), row-0 transmission carries
0x80 in module 0's data slot. -/
theorem C3_msb_first_witness :
    ((flush 1 (⟨drawPixels 1 (List.replicate 64 0)
          [(⟨(0 : Int), (0 : Int)⟩, BinaryColor.On)],
        ⟨fun _ => none, []⟩⟩ : Driver Unit)).1.spi.calls.getD 0 []).getD (2 * 0 + 1) 0
      = 128 := by
  have h := C3_msb_first 1 0 0 (by decide) (by decide) (by decide)
    (fun _ => (none : Option Unit)) (fun _ => rfl) 0 (by decide) 0 (by decide)
  simpa using h

end MAX7219

namespace MAX7219

/-- Claim C4 counterexample: with BUFLEN = 1 and COUNT = 1 construction
succeeds — `new` returns a driver whose framebuffer has length 1 — although
`1 ≠ 64 × 1`; no construction-time check enforces
`BufferLen = 64 × ModuleCount`. -/
theorem C4_counterexample :
    (new Unit 1 1 ⟨fun _ => none, []⟩).framebuffer.length = 1 ∧ (1 : Nat) ≠ 64 * 1 :=
  ⟨rfl, by decide⟩

/-- Claim C4 amended: construction performs no check relating BUFLEN and
COUNT — for every BUFLEN and COUNT it succeeds, storing the transport
unchanged and a zeroed framebuffer of length BUFLEN; the invariant
`BufferLen = 64 × ModuleCount` holds only when the caller instantiates the
const generics that way. -/
theorem C4_amended_no_check (E : Type) (BUFLEN COUNT : Nat) (s : SpiState E) :
    new E BUFLEN COUNT s = ⟨List.replicate BUFLEN 0, s⟩ ∧
    (new E BUFLEN COUNT s).framebuffer.length = BUFLEN ∧
    (∀ i, (new E BUFLEN COUNT s).framebuffer.getD i 0 = 0) := by
  refine ⟨rfl, by simp [new], ?_⟩
  intro i
  rw [new]
  show (List.replicate BUFLEN 0).getD i 0 = 0
  rw [List.getD_eq_getElem?_getD, List.getElem?_replicate]
  split <;> rfl

/-- Claim C5: `init_display` issues exactly the four configuration commands
`[0x0C, 0x01]` (normal operation), `[0x09, 0x00]` (no decode),
`[0x0B, 0x07]` (scan all 8 rows), `[0x0A, 0x01]` (low intensity), in this
order; if the `k`-th send fails, that failure is returned as `Comm` and none
of the remaining steps is attempted. -/
theorem C5_init_display {E : Type} (f : Nat → Option E) (fb : Framebuffer) :
    ((∀ n, n < 4 → f n = none) →
      init_display (⟨fb, ⟨f, []⟩⟩ : Driver E)
        = (⟨fb, ⟨f, [[0x0C, 0x01], [0x09, 0x00], [0x0B, 0x07], [0x0A, 0x01]]⟩⟩, .ok ())) ∧
    (∀ k e, k < 4 → (∀ n, n < k → f n = none) → f k = some e →
      init_display (⟨fb, ⟨f, []⟩⟩ : Driver E)
        = (⟨fb, ⟨f, [[0x0C, 0x01], [0x09, 0x00], [0x0B, 0x07], [0x0A, 0x01]].take (k + 1)⟩⟩,
           .error (Error.Comm e))) := by
  constructor
  · intro h
    have h0 := h 0 (by omega)
    have h1 := h 1 (by omega)
    have h2 := h 2 (by omega)
    have h3 := h 3 (by omega)
    simp [init_display, config_power_mode, config_decode_mode, config_scan_limit,
      config_intensity, transmit_raw_data, spiWrite, Except.mapError, Command.toNat, DecodeMode.toNat,
      ScanLimit.toNat, Intensity.toNat, h0, h1, h2, h3]
  · intro k e hk hpre hfail
    interval_cases k
    · simp [init_display, config_power_mode, config_decode_mode, config_scan_limit,
        config_intensity, transmit_raw_data, spiWrite, Except.mapError, Command.toNat, DecodeMode.toNat,
        ScanLimit.toNat, Intensity.toNat, hfail]
    · have h0 := hpre 0 (by omega)
      simp [init_display, config_power_mode, config_decode_mode, config_scan_limit,
        config_intensity, transmit_raw_data, spiWrite, Except.mapError, Command.toNat, DecodeMode.toNat,
        ScanLimit.toNat, Intensity.toNat, h0, hfail]
    · have h0 := hpre 0 (by omega)
      have h1 := hpre 1 (by omega)
      simp [init_display, config_power_mode, config_decode_mode, config_scan_limit,
        config_intensity, transmit_raw_data, spiWrite, Except.mapError, Command.toNat, DecodeMode.toNat,
        ScanLimit.toNat, Intensity.toNat, h0, h1, hfail]
    · have h0 := hpre 0 (by omega)
      have h1 := hpre 1 (by omega)
      have h2 := hpre 2 (by omega)
      simp [init_display, config_power_mode, config_decode_mode, config_scan_limit,
        config_intensity, transmit_raw_data, spiWrite, Except.mapError, Command.toNat, DecodeMode.toNat,
        ScanLimit.toNat, Intensity.toNat, h0, h1, h2, hfail]

/-- Witness for C5: a transport failing exactly on its second call (index 1)
aborts `init_display` after two transmissions with that failure. -/
theorem C5_init_display_witness :
    init_display (⟨[], ⟨fun n => if n = 1 then some () else none, []⟩⟩ : Driver Unit)
      = (⟨[], ⟨fun n => if n = 1 then some () else none, [[0x0C, 0x01], [0x09, 0x00]]⟩⟩,
         .error (Error.Comm ())) := by
  have h := (C5_init_display (fun n => if n = 1 then some () else none) []).2 1 ()
    (by omega) (by intro n hn; interval_cases n; rfl) rfl
  simpa using h

end MAX7219

namespace MAX7219

/-- Claim C6: `draw_iter` accepts any stream of (position, color) pairs,
never fails (its error type is the uninhabited `Empty`, so it always returns
`Ok(())`), performs no I/O (the SPI state is untouched), applies each
in-bounds pair to the framebuffer in order, and silently ignores every
out-of-bounds position, leaving the framebuffer unchanged for such pairs. -/
theorem C6_draw_iter_infallible {E : Type} (COUNT : Nat) (d : Driver E)
    (pixels : List (Point × BinaryColor)) (p : Point) (c : BinaryColor)
    (rest : List (Point × BinaryColor)) (fb : Framebuffer) :
    (draw_iter COUNT d pixels).2 = .ok () ∧
    (draw_iter COUNT d pixels).1.spi = d.spi ∧
    (bbContains COUNT p = false →
      drawPixels COUNT fb ((p, c) :: rest) = drawPixels COUNT fb rest) ∧
    (bbContains COUNT p = true →
      drawPixels COUNT fb ((p, c) :: rest)
        = drawPixels COUNT (fb.set (drawIndex COUNT p) (if c.is_on then 1 else 0)) rest) := by
  refine ⟨rfl, rfl, ?_, ?_⟩
  · intro h
    simp [drawPixels, List.filter_cons, h]
  · intro h
    simp [drawPixels, List.filter_cons, h]

/-- Witness for C6: the out-of-column position (9, 0) on a one-module
surface is discarded and drawing reports success. -/
theorem C6_draw_iter_infallible_witness :
    (draw_iter 1 (⟨List.replicate 64 0, ⟨fun _ => none, []⟩⟩ : Driver Unit)
        [(⟨9, 0⟩, BinaryColor.On)]).2 = .ok () ∧
    bbContains 1 ⟨9, 0⟩ = false ∧
    drawPixels 1 (List.replicate 64 0) [(⟨9, 0⟩, BinaryColor.On)]
      = drawPixels 1 (List.replicate 64 0) [] := by
  refine ⟨(C6_draw_iter_infallible 1 (⟨List.replicate 64 0, ⟨fun _ => none, []⟩⟩ : Driver Unit)
      [(⟨9, 0⟩, BinaryColor.On)] ⟨9, 0⟩ BinaryColor.On [] (List.replicate 64 0)).1,
    by decide, ?_⟩
  exact (C6_draw_iter_infallible 1 (⟨List.replicate 64 0, ⟨fun _ => none, []⟩⟩ : Driver Unit)
      [(⟨9, 0⟩, BinaryColor.On)] ⟨9, 0⟩ BinaryColor.On [] (List.replicate 64 0)).2.2.1
    (by decide)

/-- Claim C7: for in-bounds (x, y), a pixel write stores the on/off value (as
1 or 0) exactly at framebuffer index `x + y × 8 × ModuleCount`; reading that
cell back yields the value just written, and every other cell is
unchanged. -/
theorem C7_set_get (COUNT : Nat) (fb : Framebuffer) (hfb : fb.length = 64 * COUNT)
    (x y : Int) (c : BinaryColor) (hx0 : 0 ≤ x) (hx : x < (COUNT : Int) * 8)
    (hy0 : 0 ≤ y) (hy : y < 8) :
    drawPixels COUNT fb [(⟨x, y⟩, c)]
      = fb.set (x.toNat + y.toNat * 8 * COUNT) (if c.is_on then 1 else 0) ∧
    (drawPixels COUNT fb [(⟨x, y⟩, c)]).getD (x.toNat + y.toNat * 8 * COUNT) 0
      = (if c.is_on then 1 else 0) ∧
    (∀ j, j ≠ x.toNat + y.toNat * 8 * COUNT →
      (drawPixels COUNT fb [(⟨x, y⟩, c)]).getD j 0 = fb.getD j 0) := by
  have hbb : bbContains COUNT ⟨x, y⟩ = true := by
    simp only [bbContains, decide_eq_true_eq]
    exact ⟨hx0, hx, hy0, hy⟩
  have h1 : drawPixels COUNT fb [(⟨x, y⟩, c)]
      = fb.set (x.toNat + y.toNat * 8 * COUNT) (if c.is_on then 1 else 0) := by
    simp [drawPixels, hbb, drawIndex]
  have hxn : x.toNat < 8 * COUNT := by omega
  have hyn : y.toNat * 8 * COUNT ≤ 56 * COUNT := by
    have h := Nat.mul_le_mul_right COUNT (show y.toNat * 8 ≤ 56 by omega)
    simpa using h
  have hidx : x.toNat + y.toNat * 8 * COUNT < fb.length := by rw [hfb]; omega
  refine ⟨h1, ?_, ?_⟩
  · rw [h1, List.getD_eq_getElem?_getD, List.getElem?_set_self hidx]
    rfl
  · intro j hj
    rw [h1, List.getD_eq_getElem?_getD, List.getElem?_set_ne (fun h => hj h.symm),
      ← List.getD_eq_getElem?_getD]

/-- Witness for C7 at ModuleCount 1, pixel (3, 2): index 19 reads back 1 and
index 20 is untouched. -/
theorem C7_set_get_witness :
    (drawPixels 1 (List.replicate 64 0) [(⟨3, 2⟩, BinaryColor.On)]).getD 19 0 = 1 ∧
    (drawPixels 1 (List.replicate 64 0) [(⟨3, 2⟩, BinaryColor.On)]).getD 20 0 = 0 := by
  have h := C7_set_get 1 (List.replicate 64 0) (by simp) 3 2 BinaryColor.On
    (by decide) (by decide) (by decide) (by decide)
  constructor
  · have h2 := h.2.1
    simpa using h2
  · have h3 := h.2.2 20 (by decide)
    simpa using h3

/-- Claim C8: `clear` resets every framebuffer cell to 0 without touching the
SPI state (no I/O, cannot fail — it returns no result at all), and any
sequence of pixel writes followed by `clear` yields exactly the same
subsequent `flush` outcome, transmissions included, as never having drawn. -/
theorem C8_clear_roundtrip {E : Type} (BUFLEN COUNT : Nat) (d : Driver E)
    (pixels : List (Point × BinaryColor)) (s : SpiState E) :
    (clear BUFLEN d).spi = d.spi ∧
    (∀ i, (clear BUFLEN d).framebuffer.getD i 0 = 0) ∧
    flush COUNT (clear BUFLEN ((draw_iter COUNT d pixels).1))
      = flush COUNT (clear BUFLEN d) ∧
    flush COUNT (clear BUFLEN ((draw_iter COUNT (new E BUFLEN COUNT s) pixels).1))
      = flush COUNT (new E BUFLEN COUNT s) := by
  refine ⟨rfl, ?_, rfl, rfl⟩
  intro i
  show (List.replicate BUFLEN 0).getD i 0 = 0
  rw [List.getD_eq_getElem?_getD, List.getElem?_replicate]
  split <;> rfl

/-- Claim C9: `flush` never modifies the framebuffer (success and failure
alike), and when row send `k` fails, `flush` returns that transport error
wrapped as `Comm` immediately, having attempted exactly the first `k + 1`
row transmissions and none of the remaining rows. -/
theorem C9_flush_frame {E : Type} (COUNT : Nat) (fb : Framebuffer) (f : Nat → Option E)
    (k : Nat) (e : E) (hk : k < 8) (hpre : ∀ n, n < k → f n = none)
    (hfail : f k = some e) :
    (∀ d : Driver E, (flush COUNT d).1.framebuffer = d.framebuffer) ∧
    flush COUNT (⟨fb, ⟨f, []⟩⟩ : Driver E)
      = (⟨fb, ⟨f, ((List.range 8).take (k + 1)).map (rowBuffer COUNT fb)⟩⟩,
         .error (Error.Comm e)) ∧
    (flush COUNT (⟨fb, ⟨f, []⟩⟩ : Driver E)).1.spi.calls.length = k + 1 := by
  have herr := flushLoop_err COUNT fb (List.range 8) ⟨f, []⟩ k e
    (by intro n hn; simpa using hpre n hn) (by simpa using hfail) (by simpa using hk)
  refine ⟨?_, ?_, ?_⟩
  · intro d
    simp [flush]
  · simp [flush, herr]
  · have h2 : (flush COUNT (⟨fb, ⟨f, []⟩⟩ : Driver E)).1.spi.calls
        = ((List.range 8).take (k + 1)).map (rowBuffer COUNT fb) := by
      simp [flush, herr]
    rw [h2]
    simp only [List.length_map, List.length_take, List.length_range]
    omega

/-- Witness for C9: a transport failing on call index 2 stops `flush` after
three row transmissions with a `Comm` error. -/
theorem C9_flush_frame_witness :
    (flush 1 (⟨List.replicate 64 0,
        ⟨fun n => if n = 2 then some () else none, []⟩⟩ : Driver Unit)).2
      = .error (Error.Comm ()) ∧
    (flush 1 (⟨List.replicate 64 0,
        ⟨fun n => if n = 2 then some () else none, []⟩⟩ : Driver Unit)).1.spi.calls.length
      = 3 := by
  have h := C9_flush_frame 1 (List.replicate 64 0)
    (fun n => if n = 2 then some () else none) 2 ()
    (by decide) (by intro n hn; interval_cases n <;> rfl) rfl
  exact ⟨by rw [h.2.1], h.2.2⟩

/-- Claim C10: under the precondition BUFLEN = 64 × COUNT with COUNT ≥ 1,
every framebuffer access is in bounds: each `flush` slice satisfies
`base + 8 ≤ BUFLEN` (so the slice read panic-free has its full 8 cells), and
every `draw_iter` index computed from a pixel that passed the bounding-box
filter is strictly below BUFLEN.  Construction itself checks nothing, so the
guarantee needs the stated precondition. -/
theorem C10_in_bounds (BUFLEN COUNT : Nat) (hC : 1 ≤ COUNT) (hB : BUFLEN = 64 * COUNT) :
    (∀ disp addr, disp < COUNT → addr < 8 → rowBase disp addr COUNT + 8 ≤ BUFLEN) ∧
    (∀ fb : Framebuffer, fb.length = BUFLEN → ∀ disp addr, disp < COUNT → addr < 8 →
      (rowSlice fb disp addr COUNT).length = 8) ∧
    (∀ p : Point, bbContains COUNT p = true → drawIndex COUNT p < BUFLEN) := by
  subst hB
  have hbase : ∀ disp addr, disp < COUNT → addr < 8 →
      rowBase disp addr COUNT + 8 ≤ 64 * COUNT := by
    intro disp addr hd ha
    rw [rowBase]
    have h1 : (disp + 1) * 8 ≤ COUNT * 8 := Nat.mul_le_mul_right 8 (by omega)
    have h2 : addr * (COUNT * 8) ≤ 7 * (COUNT * 8) := Nat.mul_le_mul_right _ (by omega)
    omega
  refine ⟨hbase, ?_, ?_⟩
  · intro fb hfb disp addr hd ha
    exact rowSlice_length fb disp addr COUNT (by rw [hfb]; exact hbase disp addr hd ha)
  · intro p hp
    rw [bbContains, decide_eq_true_eq] at hp
    obtain ⟨hx0, hx, hy0, hy⟩ := hp
    rw [drawIndex]
    have hxn : p.x.toNat < 8 * COUNT := by omega
    have hyn : p.y.toNat * 8 * COUNT ≤ 56 * COUNT := by
      have h := Nat.mul_le_mul_right COUNT (show p.y.toNat * 8 ≤ 56 by omega)
      simpa using h
    omega

/-- Witness for C10 at ModuleCount 1: the extreme slice and pixel indices
stay inside a 64-cell framebuffer. -/
theorem C10_in_bounds_witness :
    rowBase 0 7 1 + 8 ≤ 64 ∧
    (rowSlice (List.replicate 64 0) 0 7 1).length = 8 ∧
    drawIndex 1 ⟨7, 7⟩ < 64 := by
  have h := C10_in_bounds 64 1 (by decide) rfl
  exact ⟨h.1 0 7 (by decide) (by decide),
    h.2.1 (List.replicate 64 0) (by simp) 0 7 (by decide) (by decide),
    h.2.2 ⟨7, 7⟩ (by decide)⟩

end MAX7219
